import Mathlib

/-!
Verification of the request-descriptor core of a Telegram bot API client
(src/configs.go): the file-reference variants, the media-group attachment
resolver (prepareInputMediaParam / prepareInputMediaFile and their list
drivers), a few descriptors' `files` methods, and the conditional
parameter setters used by SetGameScoreConfig.Params.
-/

namespace BotApi

/-- A handle to an opened local file, as the operating system returns it
from `os.Open`: it carries the name that `File.Name()` reports. -/
structure FileHandle where
  name : String
deriving DecidableEq, Repr

/-- An `io.Reader` byte source handed to the transport: in-memory bytes
(`bytes.NewReader`), a caller-supplied reader (identified only by an id,
its contents are opaque to this core), or an opened file handle. -/
inductive ByteSource where
  | ofBytes (bytes : List Nat)
  | external (id : Nat)
  | ofHandle (h : FileHandle)
deriving DecidableEq, Repr

/-- An I/O failure: `os.Open` could not open the path. -/
inductive IOError where
  | cannotOpen (path : String)
deriving DecidableEq, Repr

/-- RequestFileData (src/configs.go): the data to be used for a file,
closed over the variants the package defines: FileBytes, FileReader,
FilePath, FileURL, FileID and the internal fileAttach. -/
inductive RequestFileData where
  | FileBytes (Name : String) (Bytes : List Nat)
  | FileReader (Name : String) (Reader : Nat)
  | FilePath (path : String)
  | FileURL (url : String)
  | FileID (id : String)
  | fileAttach (s : String)
deriving DecidableEq, Repr

namespace RequestFileData

/-- NeedsUpload shows if the file needs to be uploaded: each variant's
method in the source returns the constant written here. -/
def NeedsUpload : RequestFileData → Bool
  | .FileBytes _ _ => true
  | .FileReader _ _ => true
  | .FilePath _ => true
  | .FileURL _ => false
  | .FileID _ => false
  | .fileAttach _ => false

/-- UploadData gets the file name and a byte source for the file to be
uploaded. `fs` stands for the operating system: it maps a path to the
opened handle, or to `none` when `os.Open` fails. The overall `none`
models the panic of the variants that cannot be uploaded ("FileURL cannot
be uploaded" and alike); an open failure is the recoverable error inside. -/
def UploadData (fs : String → Option FileHandle) :
    RequestFileData → Option (Except IOError (String × ByteSource))
  | .FileBytes n b => some (.ok (n, .ofBytes b))
  | .FileReader n r => some (.ok (n, .external r))
  | .FilePath p =>
      some (match fs p with
        | none => .error (.cannotOpen p)
        | some h => .ok (h.name, .ofHandle h))
  | .FileURL _ => none
  | .FileID _ => none
  | .fileAttach _ => none

/-- SendData gets the string to send when a file does not need to be
uploaded; `none` models the panic of the variants that must be uploaded
("FileBytes must be uploaded" and alike). -/
def SendData : RequestFileData → Option String
  | .FileBytes _ _ => none
  | .FileReader _ _ => none
  | .FilePath _ => none
  | .FileURL u => some u
  | .FileID i => some i
  | .fileAttach s => some s

end RequestFileData

/-- RequestFile (src/configs.go): a file associated with a field name. -/
structure RequestFile where
  Name : String
  Data : RequestFileData
deriving DecidableEq, Repr

/-- The InputMedia variants a media group may hold. The struct layouts
live in a sibling source file (types.go) that is not among the files
given, so the layout is modelled from the spec: each variant holds a
primary `Media` reference, the non-Photo variants an optional `Thumb`
reference, plus pass-through metadata fields (caption; duration,
performer, title where the wire type has them). `Media` and `Thumb` are
exactly the fields prepareInputMediaParam and prepareInputMediaFile read
and write. -/
inductive InputMedia where
  | InputMediaPhoto (Media : RequestFileData) (Caption : String)
  | InputMediaVideo (Media : RequestFileData) (Thumb : Option RequestFileData)
      (Caption : String) (Duration : Nat)
  | InputMediaAudio (Media : RequestFileData) (Thumb : Option RequestFileData)
      (Caption : String) (Duration : Nat) (Performer : String) (Title : String)
  | InputMediaDocument (Media : RequestFileData) (Thumb : Option RequestFileData)
      (Caption : String)
deriving DecidableEq, Repr

namespace InputMedia

/-- The primary file reference of a media item. -/
def media : InputMedia → RequestFileData
  | .InputMediaPhoto m _ => m
  | .InputMediaVideo m _ _ _ => m
  | .InputMediaAudio m _ _ _ _ _ => m
  | .InputMediaDocument m _ _ => m

/-- The optional thumbnail reference (Photo has none). -/
def thumb : InputMedia → Option RequestFileData
  | .InputMediaPhoto _ _ => none
  | .InputMediaVideo _ t _ _ => t
  | .InputMediaAudio _ t _ _ _ _ => t
  | .InputMediaDocument _ t _ => t

/-- Whether resolving the item rewrites nothing: its media does not need
upload and its thumbnail, when present, does not either. -/
def noUploadNeeded (m : InputMedia) : Bool :=
  !m.media.NeedsUpload &&
    (match m.thumb with
     | some t => !t.NeedsUpload
     | none => true)

end InputMedia

/-- prepareInputMediaParam (src/configs.go lines 2445-2486): replaces, in
a copy of the item, an upload-needing `Media` with the attach token
"attach://file-{idx}" and an upload-needing `Thumb` with
"attach://file-{idx}-thumb"; everything else is carried over unchanged. -/
def prepareInputMediaParam (inputMedia : InputMedia) (idx : Nat) : InputMedia :=
  match inputMedia with
  | .InputMediaPhoto media caption =>
      let media := if media.NeedsUpload then
        RequestFileData.fileAttach ("attach://file-" ++ toString idx) else media
      .InputMediaPhoto media caption
  | .InputMediaVideo media thumb caption duration =>
      let media := if media.NeedsUpload then
        RequestFileData.fileAttach ("attach://file-" ++ toString idx) else media
      let thumb := match thumb with
        | some t =>
          if t.NeedsUpload then
            some (RequestFileData.fileAttach ("attach://file-" ++ toString idx ++ "-thumb"))
          else some t
        | none => none
      .InputMediaVideo media thumb caption duration
  | .InputMediaAudio media thumb caption duration performer title =>
      let media := if media.NeedsUpload then
        RequestFileData.fileAttach ("attach://file-" ++ toString idx) else media
      let thumb := match thumb with
        | some t =>
          if t.NeedsUpload then
            some (RequestFileData.fileAttach ("attach://file-" ++ toString idx ++ "-thumb"))
          else some t
        | none => none
      .InputMediaAudio media thumb caption duration performer title
  | .InputMediaDocument media thumb caption =>
      let media := if media.NeedsUpload then
        RequestFileData.fileAttach ("attach://file-" ++ toString idx) else media
      let thumb := match thumb with
        | some t =>
          if t.NeedsUpload then
            some (RequestFileData.fileAttach ("attach://file-" ++ toString idx ++ "-thumb"))
          else some t
        | none => none
      .InputMediaDocument media thumb caption

/-- prepareInputMediaFile (src/configs.go lines 2496-2552): the
RequestFiles of one item. Note the source names the thumbnail's file
"file-{idx}", the same as the primary media's, for every variant (lines
2517, 2531, 2545), although its own doc comment announces
"file-{idx}-thumb"; this translation reproduces the source as written. -/
def prepareInputMediaFile (inputMedia : InputMedia) (idx : Nat) : List RequestFile :=
  match inputMedia with
  | .InputMediaPhoto media _ =>
      if media.NeedsUpload then [⟨"file-" ++ toString idx, media⟩] else []
  | .InputMediaVideo media thumb _ _ =>
      (if media.NeedsUpload then [⟨"file-" ++ toString idx, media⟩] else []) ++
      (match thumb with
       | some t => if t.NeedsUpload then [⟨"file-" ++ toString idx, t⟩] else []
       | none => [])
  | .InputMediaDocument media thumb _ =>
      (if media.NeedsUpload then [⟨"file-" ++ toString idx, media⟩] else []) ++
      (match thumb with
       | some t => if t.NeedsUpload then [⟨"file-" ++ toString idx, t⟩] else []
       | none => [])
  | .InputMediaAudio media thumb _ _ _ _ =>
      (if media.NeedsUpload then [⟨"file-" ++ toString idx, media⟩] else []) ++
      (match thumb with
       | some t => if t.NeedsUpload then [⟨"file-" ++ toString idx, t⟩] else []
       | none => [])

/-- BaseChat (src/configs.go lines 266-274). ReplyMarkup, an interface
value no claim reads, is not modelled. -/
structure BaseChat where
  ChatID : Int
  ChannelUsername : String
  ProtectContent : Bool
  ReplyToMessageID : Int
  DisableNotification : Bool
  AllowSendingWithoutReply : Bool
deriving DecidableEq, Repr

/-- BaseFile (src/configs.go lines 291-294). -/
structure BaseFile where
  toBaseChat : BaseChat
  File : RequestFileData
deriving DecidableEq, Repr

/-- PhotoConfig (src/configs.go lines 406-412). CaptionEntities, whose
element type is declared outside the files given and which no claim
reads, is not modelled. A nil Thumb interface is `none`. -/
structure PhotoConfig where
  toBaseFile : BaseFile
  Thumb : Option RequestFileData
  Caption : String
  ParseMode : String
deriving DecidableEq, Repr

/-- PhotoConfig.files (src/configs.go lines 431-445): always the "photo"
entry, then a "thumb" entry when a thumbnail is set. -/
def PhotoConfig.files (config : PhotoConfig) : List RequestFile :=
  [⟨"photo", config.toBaseFile.File⟩] ++
    (match config.Thumb with
     | some t => [⟨"thumb", t⟩]
     | none => [])

/-- WebhookConfig (src/configs.go lines 1160-1167). The URL field, a
pointer to a url.URL, is modelled as the optional URL string. -/
structure WebhookConfig where
  URL : Option String
  Certificate : Option RequestFileData
  IPAddress : String
  MaxConnections : Int
  AllowedUpdates : List String
  DropPendingUpdates : Bool
deriving DecidableEq, Repr

/-- WebhookConfig.files (src/configs.go lines 1188-1197). -/
def WebhookConfig.files (config : WebhookConfig) : List RequestFile :=
  match config.Certificate with
  | some c => [⟨"certificate", c⟩]
  | none => []

/-- BaseEdit (src/configs.go lines 301-307). ReplyMarkup is not
modelled; no claim reads it. -/
structure BaseEdit where
  ChatID : Int
  ChannelUsername : String
  MessageID : Int
  InlineMessageID : String
deriving DecidableEq, Repr

/-- EditMessageMediaConfig (src/configs.go lines 1045-1049); the Media
interface field holds one InputMedia item. -/
structure EditMessageMediaConfig where
  toBaseEdit : BaseEdit
  Media : InputMedia
deriving DecidableEq, Repr

/-- EditMessageMediaConfig.files (src/configs.go lines 1066-1068). -/
def EditMessageMediaConfig.files (config : EditMessageMediaConfig) : List RequestFile :=
  prepareInputMediaFile config.Media 0

/-- The value EditMessageMediaConfig.Params writes under the "media" key
before JSON encoding (src/configs.go line 1061:
`params.AddInterface("media", prepareInputMediaParam(config.Media, 0))`). -/
def EditMessageMediaConfig.mediaParamValue (config : EditMessageMediaConfig) : InputMedia :=
  prepareInputMediaParam config.Media 0

/-- Modelled from the spec: ParameterSet (the Params type of params.go,
which is not among the files given) — a mapping from field name to an
already-string-encoded value, built by conditional single-key writes. -/
abbrev Params := List (String × String)

/-- Modelled from the spec: a direct key assignment; a write replaces any
earlier value of the key (map assignment). -/
def Params.set (params : Params) (key value : String) : Params :=
  params.filter (fun e => e.1 != key) ++ [(key, value)]

/-- The value stored under `key`, when any (map access params[key]). -/
def Params.get (params : BotApi.Params) (key : String) : Option String :=
  match params with
  | [] => none
  | e :: rest => if e.1 = key then some e.2 else Params.get rest key

/-- Modelled from the spec: setIfNonZero — writes the decimal string form
iff the number differs from its type's zero value (Params.AddNonZero). -/
def Params.AddNonZero (params : Params) (key : String) (value : Int) : Params :=
  if value ≠ 0 then params.set key (toString value) else params

/-- Modelled from the spec: setIfNonZero at 64 bits
(Params.AddNonZero64); both integer widths are modelled as Int. -/
def Params.AddNonZero64 (params : Params) (key : String) (value : Int) : Params :=
  if value ≠ 0 then params.set key (toString value) else params

/-- Modelled from the spec: setBool — writes the literal "true" iff the
value is true; an explicit false is omitted (Params.AddBool). -/
def Params.AddBool (params : Params) (key : String) (value : Bool) : Params :=
  if value then params.set key "true" else params

/-- Modelled from the spec: setFirstValid — tries candidates left to
right by the same zero-value tests, writes the first that qualifies, and
reports InvalidIdentifier when none does; specialised to the
(int64, string) candidate pattern every call site uses. The error comes
back beside the map, as in the source, where call sites may discard it. -/
def Params.AddFirstValid (params : Params) (key : String) (c1 : Int) (c2 : String) :
    Params × Option String :=
  if c1 ≠ 0 then (params.set key (toString c1), none)
  else if c2 ≠ "" then (params.set key c2, none)
  else (params, some "InvalidIdentifier")

/-- SetGameScoreConfig (src/configs.go lines 914-923). -/
structure SetGameScoreConfig where
  UserID : Int
  Score : Int
  Force : Bool
  DisableEditMessage : Bool
  ChatID : Int
  ChannelUsername : String
  MessageID : Int
  InlineMessageID : String
deriving DecidableEq, Repr

/-- SetGameScoreConfig.Params (src/configs.go lines 925-940), with the
misspelled "scrore" key exactly as the source writes it. The error
AddFirstValid may report is discarded at its call site, as in the source;
the method always returns a nil error. -/
def SetGameScoreConfig.Params (config : SetGameScoreConfig) : BotApi.Params :=
  let params : BotApi.Params := []
  let params := params.AddNonZero64 "user_id" config.UserID
  let params := params.AddNonZero "scrore" config.Score
  let params := params.AddBool "disable_edit_message" config.DisableEditMessage
  if config.InlineMessageID ≠ "" then
    params.set "inline_message_id" config.InlineMessageID
  else
    let params := (params.AddFirstValid "chat_id" config.ChatID config.ChannelUsername).1
    params.AddNonZero "message_id" config.MessageID

/-- The body of prepareInputMediaForParams' range loop: `idx` is the index
of the first element of the remaining list. -/
def prepareInputMediaForParamsFrom (idx : Nat) : List InputMedia → List InputMedia
  | [] => []
  | m :: rest => prepareInputMediaParam m idx :: prepareInputMediaForParamsFrom (idx + 1) rest

/-- prepareInputMediaForParams (src/configs.go lines 2559-2570): every
item rewritten at its own index. -/
def prepareInputMediaForParams (inputMedia : List InputMedia) : List InputMedia :=
  prepareInputMediaForParamsFrom 0 inputMedia

/-- The body of prepareInputMediaForFiles' range loop. -/
def prepareInputMediaForFilesFrom (idx : Nat) : List InputMedia → List RequestFile
  | [] => []
  | m :: rest => prepareInputMediaFile m idx ++ prepareInputMediaForFilesFrom (idx + 1) rest

/-- prepareInputMediaForFiles (src/configs.go lines 2577-2587): the
concatenation of every item's files, in order. -/
def prepareInputMediaForFiles (inputMedia : List InputMedia) : List RequestFile :=
  prepareInputMediaForFilesFrom 0 inputMedia

/-- Two media items agree on the constructor and on every field other
than `Media` and `Thumb` (the pass-through metadata). -/
def sameMetadata : InputMedia → InputMedia → Prop
  | .InputMediaPhoto _ c1, .InputMediaPhoto _ c2 => c1 = c2
  | .InputMediaVideo _ _ c1 d1, .InputMediaVideo _ _ c2 d2 => c1 = c2 ∧ d1 = d2
  | .InputMediaAudio _ _ c1 d1 p1 t1, .InputMediaAudio _ _ c2 d2 p2 t2 =>
      c1 = c2 ∧ d1 = d2 ∧ p1 = p2 ∧ t1 = t2
  | .InputMediaDocument _ _ c1, .InputMediaDocument _ _ c2 => c1 = c2
  | _, _ => False

/-- One video item whose media and thumbnail both need upload. -/
def sampleVideoBothUpload : InputMedia :=
  .InputMediaVideo (.FileBytes "v.mp4" [0]) (some (.FileBytes "t.jpg" [1])) "" 0

/-- One document item whose media is remote and whose thumbnail needs
upload. -/
def sampleDocThumbOnly : InputMedia :=
  .InputMediaDocument (.FileID "doc-id") (some (.FileBytes "t.jpg" [7])) ""

/-- A PhotoConfig whose file is a remote file id (nothing to upload). -/
def samplePhotoConfigRemote : PhotoConfig :=
  ⟨⟨⟨0, "", false, 0, false, false⟩, .FileID "abc"⟩, none, "", ""⟩

set_option linter.unnecessarySeqFocus false in
/-- Every RequestFile the per-item resolver emits wraps a reference that
needs upload: both appends in the source are guarded by NeedsUpload. -/
theorem needsUpload_of_mem_prepareInputMediaFile (m : InputMedia) (idx : Nat) :
    ∀ f ∈ prepareInputMediaFile m idx, f.Data.NeedsUpload = true := by
  intro f hf
  cases m with
  | InputMediaPhoto media caption =>
      by_cases hm : media.NeedsUpload <;> simp_all [prepareInputMediaFile]
  | InputMediaVideo media thumb caption duration =>
      cases thumb with
      | none => by_cases hm : media.NeedsUpload <;> simp_all [prepareInputMediaFile]
      | some t =>
          by_cases hm : media.NeedsUpload <;> by_cases ht : t.NeedsUpload <;>
            simp_all [prepareInputMediaFile] <;> rcases hf with rfl | rfl <;> assumption
  | InputMediaAudio media thumb caption duration performer title =>
      cases thumb with
      | none => by_cases hm : media.NeedsUpload <;> simp_all [prepareInputMediaFile]
      | some t =>
          by_cases hm : media.NeedsUpload <;> by_cases ht : t.NeedsUpload <;>
            simp_all [prepareInputMediaFile] <;> rcases hf with rfl | rfl <;> assumption
  | InputMediaDocument media thumb caption =>
      cases thumb with
      | none => by_cases hm : media.NeedsUpload <;> simp_all [prepareInputMediaFile]
      | some t =>
          by_cases hm : media.NeedsUpload <;> by_cases ht : t.NeedsUpload <;>
            simp_all [prepareInputMediaFile] <;> rcases hf with rfl | rfl <;> assumption

/-- C1: the token/part-name round trip fails on the code. For one item
whose media and thumbnail both need upload, the resolver emits two parts
that are both named "file-0" (not 2 distinct names), while the rewritten
item references "attach://file-0-thumb", a token that matches no part. -/
theorem thumbnail_part_name_collides_with_media_part :
    (prepareInputMediaForFiles [sampleVideoBothUpload]).map RequestFile.Name =
        ["file-0", "file-0"] ∧
    prepareInputMediaForParams [sampleVideoBothUpload] =
      [.InputMediaVideo (.fileAttach "attach://file-0")
        (some (.fileAttach "attach://file-0-thumb")) "" 0] ∧
    (prepareInputMediaForFiles [sampleVideoBothUpload]).filter
        (fun f => f.Name == "file-0-thumb") = [] := by
  decide

/-- C2: an upload-needing thumbnail is rewritten to the token
"attach://file-{i}-thumb", but the RequestFile appended for it is named
"file-{i}" — without the "-thumb" suffix the claim (and the source's own
doc comment) announces. Evaluated at index 3 on a document item whose
thumbnail alone needs upload. -/
theorem thumbnail_token_and_part_name_disagree :
    prepareInputMediaParam sampleDocThumbOnly 3 =
      .InputMediaDocument (.FileID "doc-id")
        (some (.fileAttach "attach://file-3-thumb")) "" ∧
    prepareInputMediaFile sampleDocThumbOnly 3 =
      [⟨"file-3", .FileBytes "t.jpg" [7]⟩] := by
  decide

/-- C5: for every file-reference variant, exactly the accessor matching
NeedsUpload is valid: UploadData yields a value (never the fatal branch)
iff NeedsUpload is true, and SendData yields a value iff NeedsUpload is
false — whatever the state of the file system. -/
theorem accessor_validity_matches_needsUpload
    (fs : String → Option FileHandle) (d : RequestFileData) :
    ((d.UploadData fs).isSome ↔ d.NeedsUpload = true) ∧
    (d.SendData.isSome ↔ d.NeedsUpload = false) := by
  cases d <;>
    simp [RequestFileData.UploadData, RequestFileData.SendData,
      RequestFileData.NeedsUpload]

/-- C6: a FilePath value is only the path; the file system is consulted
exactly at UploadData time, which reports an IOError precisely when the
path cannot be opened and the opened handle's name and the handle
otherwise; FileURL and FileID are pure data whose SendData always
succeeds with the underlying string. -/
theorem filePath_lazy_open_and_remote_send
    (fs : String → Option FileHandle) (p : String) :
    ((RequestFileData.FilePath p).UploadData fs =
        some (.error (.cannotOpen p)) ↔ fs p = none) ∧
    (∀ h : FileHandle, fs p = some h →
      (RequestFileData.FilePath p).UploadData fs =
        some (.ok (h.name, .ofHandle h))) ∧
    (∀ u : String, (RequestFileData.FileURL u).SendData = some u) ∧
    (∀ i : String, (RequestFileData.FileID i).SendData = some i) := by
  refine ⟨?_, ?_, fun u => rfl, fun i => rfl⟩
  · cases hfs : fs p <;> simp [RequestFileData.UploadData, hfs]
  · intro h hfs
    simp [RequestFileData.UploadData, hfs]

/-- C7, counterexample: PhotoConfig.files pairs the "photo" field with
whatever reference the config holds, here a FileID that does not need
upload — so not every RequestFile the core produces wraps an
upload-needing reference. -/
theorem photoConfig_requestFile_without_upload :
    (PhotoConfig.files samplePhotoConfigRemote).all
        (fun f => f.Data.NeedsUpload) = false := by
  decide

/-- C7 as amended: every RequestFile produced by media resolution (the
per-item resolver and the whole-group driver) wraps a reference that
needs upload; descriptor files() methods may also emit RequestFiles whose
reference does not need upload. -/
theorem media_resolution_files_all_need_upload (m : InputMedia) (idx : Nat)
    (xs : List InputMedia) :
    (prepareInputMediaFile m idx).all (fun f => f.Data.NeedsUpload) = true ∧
    (prepareInputMediaForFiles xs).all (fun f => f.Data.NeedsUpload) = true := by
  constructor
  · exact List.all_eq_true.mpr fun f hf =>
      needsUpload_of_mem_prepareInputMediaFile m idx f hf
  · refine List.all_eq_true.mpr fun f hf => ?_
    suffices h : ∀ k (ys : List InputMedia) f,
        f ∈ prepareInputMediaForFilesFrom k ys → f.Data.NeedsUpload = true from
      h 0 xs f hf
    intro k ys
    induction ys generalizing k with
    | nil => intro f hf; simp [prepareInputMediaForFilesFrom] at hf
    | cons y rest ih =>
        intro f hf
        rcases List.mem_append.mp hf with hy | hr
        · exact needsUpload_of_mem_prepareInputMediaFile y k f hy
        · exact ih (k + 1) f hr

/-- C3: an upload-needing primary media at index idx is replaced by the
token "attach://file-{idx}" and the file list starts with the
RequestFile named "file-{idx}" holding the original reference; in
particular a single Photo needing upload resolves to exactly one file
named "file-0" and the token "attach://file-0". -/
theorem media_upload_rewrite_and_part (m : InputMedia) (idx : Nat)
    (h : m.media.NeedsUpload = true) :
    (prepareInputMediaParam m idx).media =
        .fileAttach ("attach://file-" ++ toString idx) ∧
    (prepareInputMediaFile m idx).head? =
        some ⟨"file-" ++ toString idx, m.media⟩ ∧
    (∀ d : RequestFileData, d.NeedsUpload = true →
      prepareInputMediaForFiles [.InputMediaPhoto d ""] = [⟨"file-0", d⟩] ∧
      prepareInputMediaForParams [.InputMediaPhoto d ""] =
        [.InputMediaPhoto (.fileAttach "attach://file-0") ""]) := by
  refine ⟨?_, ?_, ?_⟩
  · cases m <;> simp_all [prepareInputMediaParam, InputMedia.media]
  · cases m <;> simp_all [prepareInputMediaFile, InputMedia.media]
  · intro d hd
    constructor <;>
      simp [prepareInputMediaForFiles, prepareInputMediaForFilesFrom,
        prepareInputMediaFile, prepareInputMediaForParams,
        prepareInputMediaForParamsFrom, prepareInputMediaParam, hd] <;>
      rfl

/-- Witness for C3 at a concrete input: a photo of in-memory bytes at
index 5. -/
theorem media_upload_rewrite_and_part_witness :
    (prepareInputMediaParam (.InputMediaPhoto (.FileBytes "p.png" [2]) "cap") 5).media =
        .fileAttach ("attach://file-" ++ toString 5) ∧
    (prepareInputMediaFile (.InputMediaPhoto (.FileBytes "p.png" [2]) "cap") 5).head? =
        some ⟨"file-" ++ toString 5, (InputMedia.InputMediaPhoto (.FileBytes "p.png" [2]) "cap").media⟩ ∧
    (∀ d : RequestFileData, d.NeedsUpload = true →
      prepareInputMediaForFiles [.InputMediaPhoto d ""] = [⟨"file-0", d⟩] ∧
      prepareInputMediaForParams [.InputMediaPhoto d ""] =
        [.InputMediaPhoto (.fileAttach "attach://file-0") ""]) :=
  media_upload_rewrite_and_part (.InputMediaPhoto (.FileBytes "p.png" [2]) "cap") 5
    (by decide)

/-- C4: an item whose media does not need upload keeps its media field
unchanged in the rewritten item, no RequestFile carries that reference,
and a FileID's or FileURL's SendData is exactly the raw string it was
constructed from. -/
theorem no_upload_media_passthrough (m : InputMedia) (idx : Nat)
    (h : m.media.NeedsUpload = false) :
    (prepareInputMediaParam m idx).media = m.media ∧
    (∀ f ∈ prepareInputMediaFile m idx, f.Data ≠ m.media) ∧
    (∀ s : String, (RequestFileData.FileID s).SendData = some s ∧
        (RequestFileData.FileURL s).SendData = some s) := by
  refine ⟨?_, ?_, fun s => ⟨rfl, rfl⟩⟩
  · cases m <;> simp_all [prepareInputMediaParam, InputMedia.media]
  · intro f hf heq
    have hup := needsUpload_of_mem_prepareInputMediaFile m idx f hf
    rw [heq, h] at hup
    exact Bool.false_ne_true hup

/-- Witness for C4 at a concrete input: a photo holding a remote file
id at index 0. -/
theorem no_upload_media_passthrough_witness :
    (prepareInputMediaParam (.InputMediaPhoto (.FileID "abc") "") 0).media =
        (InputMedia.InputMediaPhoto (.FileID "abc") "").media ∧
    (∀ f ∈ prepareInputMediaFile (.InputMediaPhoto (.FileID "abc") "") 0,
      f.Data ≠ (InputMedia.InputMediaPhoto (.FileID "abc") "").media) ∧
    (∀ s : String, (RequestFileData.FileID s).SendData = some s ∧
        (RequestFileData.FileURL s).SendData = some s) :=
  no_upload_media_passthrough (.InputMediaPhoto (.FileID "abc") "") 0 (by decide)

/-- The loop body keeps the length of its input. -/
theorem length_prepareInputMediaForParamsFrom (k : Nat) (xs : List InputMedia) :
    (prepareInputMediaForParamsFrom k xs).length = xs.length := by
  induction xs generalizing k with
  | nil => rfl
  | cons m rest ih => simp [prepareInputMediaForParamsFrom, ih]

/-- The loop body rewrites the element at offset i at index k + i. -/
theorem getElem?_prepareInputMediaForParamsFrom
    (k : Nat) (xs : List InputMedia) (i : Nat) :
    (prepareInputMediaForParamsFrom k xs)[i]? =
      (xs[i]?).map (fun m => prepareInputMediaParam m (k + i)) := by
  induction xs generalizing k i with
  | nil => simp [prepareInputMediaForParamsFrom]
  | cons m rest ih =>
      cases i with
      | zero => simp [prepareInputMediaForParamsFrom]
      | succ j =>
          simp only [prepareInputMediaForParamsFrom, List.getElem?_cons_succ, ih]
          simp [Nat.add_assoc, Nat.add_comm, Nat.add_left_comm]

/-- Rewriting an item never touches its metadata fields. -/
theorem sameMetadata_prepareInputMediaParam (m : InputMedia) (j : Nat) :
    sameMetadata m (prepareInputMediaParam m j) := by
  cases m <;> simp [prepareInputMediaParam, sameMetadata]

/-- An item with nothing to upload is returned identical. -/
theorem prepareInputMediaParam_of_noUploadNeeded (m : InputMedia) (j : Nat)
    (h : m.noUploadNeeded = true) : prepareInputMediaParam m j = m := by
  cases m with
  | InputMediaPhoto media caption =>
      simp_all [InputMedia.noUploadNeeded, InputMedia.media, InputMedia.thumb,
        prepareInputMediaParam]
  | InputMediaVideo media thumb caption duration =>
      cases thumb <;>
        simp_all [InputMedia.noUploadNeeded, InputMedia.media, InputMedia.thumb,
          prepareInputMediaParam]
  | InputMediaAudio media thumb caption duration performer title =>
      cases thumb <;>
        simp_all [InputMedia.noUploadNeeded, InputMedia.media, InputMedia.thumb,
          prepareInputMediaParam]
  | InputMediaDocument media thumb caption =>
      cases thumb <;>
        simp_all [InputMedia.noUploadNeeded, InputMedia.media, InputMedia.thumb,
          prepareInputMediaParam]

/-- C8: the rewritten sequence has the same length and order as the
input; the item at index i is exactly the input item rewritten at index
i, which agrees with it on every metadata field; and an item needing no
rewrite comes out identical. -/
theorem params_rewrite_preserves_shape (xs : List InputMedia) :
    (prepareInputMediaForParams xs).length = xs.length ∧
    ∀ i m, xs[i]? = some m →
      (prepareInputMediaForParams xs)[i]? = some (prepareInputMediaParam m i) ∧
      sameMetadata m (prepareInputMediaParam m i) ∧
      (m.noUploadNeeded = true → prepareInputMediaParam m i = m) := by
  refine ⟨length_prepareInputMediaForParamsFrom 0 xs, fun i m hm => ⟨?_, ?_, ?_⟩⟩
  · rw [prepareInputMediaForParams, getElem?_prepareInputMediaForParamsFrom, hm]
    simp
  · exact sameMetadata_prepareInputMediaParam m i
  · exact prepareInputMediaParam_of_noUploadNeeded m i

/-- C9: the single-item edit path is the media-group algorithm at length
1 and index 0: its files are the group resolution of [Media], the value
written under the "media" key is the per-item rewrite at index 0, and
that value is exactly the one element of the group rewrite of [Media]. -/
theorem editMessageMedia_single_item_refinement (config : EditMessageMediaConfig) :
    EditMessageMediaConfig.files config = prepareInputMediaForFiles [config.Media] ∧
    EditMessageMediaConfig.mediaParamValue config =
      prepareInputMediaParam config.Media 0 ∧
    prepareInputMediaForParams [config.Media] =
      [EditMessageMediaConfig.mediaParamValue config] := by
  refine ⟨?_, rfl, rfl⟩
  simp [EditMessageMediaConfig.files, prepareInputMediaForFiles,
    prepareInputMediaForFilesFrom]

/-- Reading back through a write: the written key returns the new value,
any other key reads the previous map. -/
theorem Params.get_set (l : BotApi.Params) (key k v : String) :
    (Params.set l k v).get key = if key = k then some v else l.get key := by
  induction l with
  | nil =>
      by_cases hk : key = k
      · subst hk; simp [Params.set, Params.get]
      · simp [Params.set, Params.get, hk, Ne.symm hk]
  | cons e rest ih =>
      by_cases he : e.1 = k
      · by_cases hk : key = k
        · subst hk
          simp_all [Params.set, Params.get]
        · have hek : e.1 ≠ key := by rw [he]; exact fun h => hk h.symm
          simp_all [Params.set, Params.get]
      · by_cases hek : e.1 = key
        · subst hek
          simp_all [Params.set, Params.get, fun h : e.1 = k => he h]
        · simp_all [Params.set, Params.get]

set_option maxHeartbeats 2000000 in
/-- C10: SetGameScoreConfig.Params writes a nonzero score under the
misspelled key "scrore" (its decimal string), never under "score", and a
zero score adds neither key. -/
theorem setGameScore_misspelled_score_key (config : SetGameScoreConfig) :
    (config.Score ≠ 0 →
      (SetGameScoreConfig.Params config).get "scrore" =
        some (toString config.Score)) ∧
    (config.Score = 0 →
      (SetGameScoreConfig.Params config).get "scrore" = none) ∧
    (SetGameScoreConfig.Params config).get "score" = none := by
  have hnil : ∀ key, Params.get [] key = none := fun _ => rfl
  unfold SetGameScoreConfig.Params
  simp only [Params.AddNonZero, Params.AddNonZero64, Params.AddBool,
    Params.AddFirstValid]
  refine ⟨fun h => ?_, fun h => ?_, ?_⟩ <;>
    split_ifs <;> simp_all [Params.get_set, hnil]

end BotApi
